import Mathlib

/-!
Verification of the autonfs repository against its specification.

The definitions below are a shallow embedding of the Go sources:
  * `src/internal/watcher/watcher.go` (the `slog` variant, whose line numbers
    the claims cite): `checkLoad`, `getNFSProcCount`, the ops-delta state of
    `Watch`, the decision phase and the idle-countdown/shutdown logic;
  * `src/pkg/wol/wol.go`: `NewMagicPacket` (together with a faithful model of
    Go's `net.ParseMAC`, which it calls);
  * the deployer (`Apply`, `applyHost`, `RunUndeploy` and helpers from the
    deployer package) as an effect-trace semantics over an abstract
    environment supplying file contents and command outcomes, mirroring the
    injected `SSHClient` / `LocalExecutor` seams of the source.

Machine integers are modelled as `Nat` with explicit `% 2 ^ 64` where Go's
`uint64` arithmetic can overflow.  Strings are processed as their character
lists (the sources only ever index ASCII data).  Load averages are modelled
as rationals: only the ordered comparison `load < threshold` matters to the
watcher, never the floating-point representation.
-/

set_option maxRecDepth 16384

namespace AutoNFS

/-! ### Watcher: signal computation (src/internal/watcher/watcher.go) -/

/-- 2^64, the modulus of Go's `uint64` arithmetic. -/
def U64 : ℕ := 2 ^ 64

/-- Embedding of `Monitor.checkLoad`: `read` is the parsed first field of the
load-average file, `none` when the file read or the float parse fails.
Returns `(isLowLoad, loadVal, errored)` mirroring the Go triple
`(load < threshold, load, err)`; on error Go returns `(false, 0, err)`. -/
def checkLoad (read : Option ℚ) (threshold : ℚ) : Bool × ℚ × Bool :=
  match read with
  | none => (false, 0, true)
  | some load => (decide (load < threshold), load, false)

/-- Splitter underlying `strings.Fields`: maximal runs of non-whitespace. -/
def splitFieldsAux : List Char → List Char → List (List Char)
  | [], cur => if cur = [] then [] else [cur.reverse]
  | c :: cs, cur =>
    if c.isWhitespace then
      if cur = [] then splitFieldsAux cs []
      else cur.reverse :: splitFieldsAux cs []
    else splitFieldsAux cs (c :: cur)

/-- `strings.Fields` on a line (ASCII whitespace). -/
def goFields (line : List Char) : List (List Char) := splitFieldsAux line []

/-- Line splitter corresponding to `bufio.Scanner` over the file content.
A trailing newline produces a final empty line, which contributes no fields
and is therefore skipped by every consumer, exactly as in Go. -/
def splitLinesAux : List Char → List Char → List (List Char)
  | [], cur => [cur.reverse]
  | c :: cs, cur =>
    if c = '\n' then cur.reverse :: splitLinesAux cs []
    else splitLinesAux cs (c :: cur)

/-- `strconv.ParseUint(s, 10, 64)`: decimal digits only, non-empty, and the
value must fit in 64 bits (Go reports `ErrRange` otherwise, and the caller
skips the field on any error). -/
def parseUint64 (s : List Char) : Option ℕ :=
  if s ≠ [] ∧ s.all Char.isDigit then
    let v := s.foldl (fun a c => a * 10 + (c.toNat - 48)) 0
    if v < U64 then some v else none
  else none

/-- One line of `getNFSProcCount`: if the first field is `proc3` or `proc4`,
add every parseable counter after the second field into the running total,
wrapping at 2^64 on each addition exactly as `uint64` `+=` does. -/
def procLineAdd (acc : ℕ) (line : List Char) : ℕ :=
  match goFields line with
  | header :: _cnt :: counters =>
    if header = "proc3".toList ∨ header = "proc4".toList then
      counters.foldl
        (fun a w =>
          match parseUint64 w with
          | some v => (a + v) % U64
          | none => a)
        acc
    else acc
  | _ => acc

/-- Embedding of `Monitor.getNFSProcCount` applied to the content of the
RPC-stats file: the cumulative operation total. -/
def nfsdTotal (content : String) : ℕ :=
  (splitLinesAux content.toList []).foldl procLineAdd 0

/-- The ops-delta update performed by one `Watch` tick (watcher.go, the
`currOps, err := m.getNFSProcCount()` block): on a failed read the delta is
zero and the stored total is left unchanged; on a successful read the delta
is the wrapping `uint64` difference `curr - lastOps` when `lastOps > 0`, and
zero (bootstrap) when `lastOps = 0`; the stored total becomes `curr`.
Returns `(opsDelta, newLastOps)`. -/
def opsStep (lastOps : ℕ) (read : Option String) : ℕ × ℕ :=
  match read with
  | none => (0, lastOps)
  | some content =>
    let curr := nfsdTotal content
    if 0 < lastOps then ((curr + U64 - lastOps) % U64, curr)
    else (0, curr)

/-- The tag of the `activeReason` string chosen by the decision phase. -/
inductive Reason
  | highLoad
  | clientsAttached
  | nfsActivity
deriving DecidableEq

/-- The activity verdict of one tick. -/
inductive Verdict
  | active (r : Reason)
  | idle
deriving DecidableEq

instance : Inhabited Verdict := ⟨Verdict.idle⟩

/-- Decision phase of `Watch` (watcher.go): first match wins among
high load, attached clients, positive ops delta; otherwise idle. -/
def decideVerdict (isLowLoad : Bool) (clients : List String) (opsDelta : ℕ) : Verdict :=
  if !isLowLoad then .active .highLoad
  else if 0 < clients.length then .active .clientsAttached
  else if 0 < opsDelta then .active .nfsActivity
  else .idle

/-- The raw readings available to one tick of `Watch`.  `loadRead` is the
parsed load average (`none`: read/parse failure), `clientsRead` the result of
`getNFSv4Clients` (`none`: `ReadDir` failed, in which case Go uses the `nil`
slice, i.e. the empty client list), `rpcRead` the RPC-stats file content
(`none`: read failure). -/
structure TickIn where
  time : ℕ
  loadRead : Option ℚ
  clientsRead : Option (List String)
  rpcRead : Option String

instance : Inhabited TickIn := ⟨⟨0, none, none, none⟩⟩

/-- Data-collection plus decision phase of one tick: the verdict and the
updated stored ops total. -/
def tickSignals (threshold : ℚ) (lastOps : ℕ) (t : TickIn) : Verdict × ℕ :=
  let low := (checkLoad t.loadRead threshold).1
  let clients := t.clientsRead.getD []
  let (delta, last2) := opsStep lastOps t.rpcRead
  (decideVerdict low clients delta, last2)

/-! ### Watcher: idle countdown and shutdown (the `Watch` loop state) -/

/-- The mutable state of the `Watch` loop: `idleStart` and `lastOps`. -/
structure WState where
  idleStart : ℕ
  lastOps : ℕ
deriving DecidableEq

/-- What one tick reports: its timestamp, verdict, the value of `idleStart`
entering and leaving the tick, and whether `ShutdownFunc` was invoked. -/
structure TickOut where
  time : ℕ
  verdict : Verdict
  before : ℕ
  after : ℕ
  fired : Bool
deriving DecidableEq

instance : Inhabited TickOut := ⟨⟨0, .idle, 0, 0, false⟩⟩

/-- One iteration of the `Watch` loop body (logging & action phase): an
active verdict resets `idleStart` to the tick's time; an idle verdict with
`time - idleStart > idleTimeout` invokes the shutdown action unless dry-run,
in which case `idleStart` is reset instead. -/
def watchStep (idleTimeout : ℕ) (threshold : ℚ) (dryRun : Bool) (s : WState) (t : TickIn) :
    WState × TickOut :=
  let v := (tickSignals threshold s.lastOps t).1
  let last2 := (tickSignals threshold s.lastOps t).2
  if v ≠ .idle then
    (⟨t.time, last2⟩, ⟨t.time, v, s.idleStart, t.time, false⟩)
  else if idleTimeout < t.time - s.idleStart then
    if dryRun then (⟨t.time, last2⟩, ⟨t.time, v, s.idleStart, t.time, false⟩)
    else (⟨s.idleStart, last2⟩, ⟨t.time, v, s.idleStart, s.idleStart, true⟩)
  else (⟨s.idleStart, last2⟩, ⟨t.time, v, s.idleStart, s.idleStart, false⟩)

/-- The `Watch` loop over a finite trace of ticks. -/
def watchRun (idleTimeout : ℕ) (threshold : ℚ) (dryRun : Bool) (s : WState) :
    List TickIn → List TickOut
  | [] => []
  | t :: rest =>
    (watchStep idleTimeout threshold dryRun s t).2 ::
      watchRun idleTimeout threshold dryRun (watchStep idleTimeout threshold dryRun s t).1 rest

/-! ### Characterisation of the ops total as a plain sum -/

/-- Left fold of wrapping `uint64` addition. -/
def modFold (a : ℕ) (l : List ℕ) : ℕ := l.foldl (fun x v => (x + v) % U64) a

/-- The counter values a single RPC-stats line contributes. -/
def lineVals (line : List Char) : List ℕ :=
  match goFields line with
  | header :: _cnt :: counters =>
    if header = "proc3".toList ∨ header = "proc4".toList then
      counters.filterMap parseUint64
    else []
  | _ => []

/-- The spec's reading of the cumulative total: the sum of all counter
fields across `proc3`/`proc4` lines (reduced modulo 2^64, as the counters
live in a `uint64`). -/
def specNfsdTotal (content : String) : ℕ :=
  (((splitLinesAux content.toList []).map lineVals).flatten).sum % U64

theorem modFold_of_ne_nil (l : List ℕ) : ∀ a, l ≠ [] → modFold a l = (a + l.sum) % U64 := by
  induction l with
  | nil => intro a h; exact absurd rfl h
  | cons v rest ih =>
    intro a _
    by_cases hr : rest = []
    · subst hr; simp [modFold]
    · have h2 := ih ((a + v) % U64) hr
      simp only [modFold, List.foldl_cons] at h2 ⊢
      rw [h2, Nat.mod_add_mod, List.sum_cons, Nat.add_assoc]

theorem modFold_zero (l : List ℕ) : modFold 0 l = l.sum % U64 := by
  cases h : l with
  | nil => simp [modFold]
  | cons v rest => rw [← h, modFold_of_ne_nil l 0 (by simp [h]), Nat.zero_add]

theorem counterFold_eq (counters : List (List Char)) : ∀ a : ℕ,
    counters.foldl
      (fun a w =>
        match parseUint64 w with
        | some v => (a + v) % U64
        | none => a)
      a = modFold a (counters.filterMap parseUint64) := by
  induction counters with
  | nil => intro a; simp [modFold]
  | cons w rest ih =>
    intro a
    cases h : parseUint64 w <;>
      simp only [List.foldl_cons, List.filterMap_cons, h, modFold, ih]

theorem procLineAdd_eq (acc : ℕ) (line : List Char) :
    procLineAdd acc line = modFold acc (lineVals line) := by
  unfold procLineAdd lineVals
  cases hf : goFields line with
  | nil => simp [modFold]
  | cons h t =>
    cases t with
    | nil => simp [modFold]
    | cons c rest =>
      dsimp only
      by_cases hh : h = "proc3".toList ∨ h = "proc4".toList
      · rw [if_pos hh, if_pos hh]; exact counterFold_eq rest acc
      · rw [if_neg hh, if_neg hh]; simp [modFold]

theorem foldl_procLineAdd (lines : List (List Char)) : ∀ a : ℕ,
    lines.foldl procLineAdd a = modFold a ((lines.map lineVals).flatten) := by
  induction lines with
  | nil => intro a; simp [modFold]
  | cons l rest ih =>
    intro a
    simp only [List.foldl_cons, List.map_cons, List.flatten_cons, procLineAdd_eq, ih]
    unfold modFold
    rw [List.foldl_append]

/-- The fold with per-addition wrapping computed by `getNFSProcCount` equals
the plain sum of all counter fields, reduced modulo 2^64. -/
theorem nfsdTotal_eq_spec (content : String) : nfsdTotal content = specNfsdTotal content := by
  unfold nfsdTotal specNfsdTotal
  rw [foldl_procLineAdd, modFold_zero]

/-! ### Claim theorems: watcher signals -/

/-- C1: for every tick input triple (load value, attached-client set, ops
delta), the verdict is a pure function with first-match-wins priority:
load at or above the threshold gives ACTIVE (high load); otherwise a
non-empty client set gives ACTIVE (clients attached), even with zero delta;
otherwise a positive ops delta gives ACTIVE (NFS activity); otherwise IDLE. -/
theorem watcher_verdict_priority (load threshold : ℚ) (clients : List String) (delta : ℕ) :
    (threshold ≤ load →
      decideVerdict (checkLoad (some load) threshold).1 clients delta = .active .highLoad) ∧
    (load < threshold → clients ≠ [] →
      decideVerdict (checkLoad (some load) threshold).1 clients delta = .active .clientsAttached) ∧
    (load < threshold → clients = [] → 0 < delta →
      decideVerdict (checkLoad (some load) threshold).1 clients delta = .active .nfsActivity) ∧
    (load < threshold → clients = [] → delta = 0 →
      decideVerdict (checkLoad (some load) threshold).1 clients delta = .idle) := by
  refine ⟨fun h => ?_, fun h hc => ?_, fun h hc hd => ?_, fun h hc hd => ?_⟩
  · simp [checkLoad, decideVerdict, not_lt.mpr h]
  · simp [checkLoad, decideVerdict, h, List.length_pos.mpr hc]
  · simp [checkLoad, decideVerdict, h, hc, hd]
  · simp [checkLoad, decideVerdict, h, hc, hd]

theorem watcher_verdict_priority_witness :
    ((1 : ℚ) ≤ 2 ∧
      decideVerdict (checkLoad (some 2) 1).1 [] 0 = .active .highLoad) ∧
    ((0 : ℚ) < 1 ∧ (["10.0.0.2"] : List String) ≠ [] ∧
      decideVerdict (checkLoad (some 0) 1).1 ["10.0.0.2"] 0 = .active .clientsAttached) :=
  ⟨⟨by norm_num, (watcher_verdict_priority 2 1 [] 0).1 (by norm_num)⟩,
   ⟨by norm_num, by simp,
    (watcher_verdict_priority 0 1 ["10.0.0.2"] 0).2.1 (by norm_num) (by simp)⟩⟩

/-- C2 counterexample: a failed read of the load-average file makes
`checkLoad` return `isLowLoad = false`, so the decision phase reports
ACTIVE with reason high load even with no clients and zero ops delta —
the failed read does fabricate an ACTIVE verdict.  Moreover, after the read
sequence success (total 100), failure, success (total 150), the stored total
is still 100, so the third read yields delta 50, not a bootstrap zero. -/
theorem watcher_error_demotion_counterexample :
    decideVerdict (checkLoad none (1 / 2)).1 [] 0 = Verdict.active .highLoad ∧
    (opsStep (opsStep (opsStep 0 (some "proc3 2 100 0")).2 none).2
      (some "proc3 2 150 0")).1 = 50 := by
  constructor
  · rfl
  · decide

/-- C2 (amended): a failed load read forces `isLowLoad = false`, so the
tick's verdict is ACTIVE with reason high load whatever the other signals; a
missing or unreadable clients directory behaves exactly like an empty client
set; a failed RPC read yields a zero ops delta and leaves the stored total
unchanged, so the next successful read is bootstrap (delta zero) precisely
when the stored total is still zero. -/
theorem watcher_error_demotion (threshold : ℚ) (clients : List String)
    (delta lastOps : ℕ) (content : String) (t : TickIn) :
    (decideVerdict (checkLoad none threshold).1 clients delta = .active .highLoad) ∧
    (t.clientsRead = none →
      tickSignals threshold lastOps t
        = tickSignals threshold lastOps { t with clientsRead := some [] }) ∧
    (opsStep lastOps none = (0, lastOps)) ∧
    (opsStep 0 (some content) = (0, nfsdTotal content)) := by
  refine ⟨rfl, fun h => ?_, rfl, rfl⟩
  simp [tickSignals, h]

theorem watcher_error_demotion_witness :
    (({ time := 0, loadRead := some 0, clientsRead := none, rpcRead := none } : TickIn).clientsRead
      = none) ∧
    tickSignals 1 0 ⟨0, some 0, none, none⟩ = tickSignals 1 0 ⟨0, some 0, some [], none⟩ :=
  ⟨rfl, (watcher_error_demotion 1 [] 0 0 "" ⟨0, some 0, none, none⟩).2.1 rfl⟩

/-- C4 counterexample: when the first successful read reports a genuinely
zero cumulative total, the stored total is zero without any failed read
having occurred, and the next successful read (total 5) yields delta 0 —
not `current - last = 5` as the claim prescribes for subsequent reads. -/
theorem ops_delta_counterexample :
    nfsdTotal "proc3 2 0 0\nproc4 2 0 0\n" = 0 ∧
    nfsdTotal "proc4 2 5 0" = 5 ∧
    (opsStep (opsStep 0 (some "proc3 2 0 0\nproc4 2 0 0\n")).2 (some "proc4 2 5 0")).1 = 0 ∧
    nfsdTotal "proc4 2 5 0" - nfsdTotal "proc3 2 0 0\nproc4 2 0 0\n" = 5 := by
  refine ⟨by decide, by decide, by decide, by decide⟩

/-- C4 (amended): the cumulative total is the sum of all counter fields
across `proc3`/`proc4` lines (mod 2^64); a successful read with stored total
zero — first read, prior failures, or a genuinely zero previous total — is
bootstrap with delta zero; a successful read with positive stored total
yields the wrapping difference, which equals `current - last` whenever
`last ≤ current`; a failed read yields delta zero, stored total unchanged. -/
theorem ops_delta_bootstrap (content : String) (lastOps : ℕ) :
    (nfsdTotal content = specNfsdTotal content) ∧
    (opsStep 0 (some content) = (0, nfsdTotal content)) ∧
    (0 < lastOps → lastOps ≤ nfsdTotal content → nfsdTotal content < U64 →
      (opsStep lastOps (some content)).1 = nfsdTotal content - lastOps) ∧
    (opsStep lastOps none = (0, lastOps)) := by
  refine ⟨nfsdTotal_eq_spec content, rfl, fun h1 h2 h3 => ?_, rfl⟩
  simp only [opsStep, h1, if_pos]
  have h4 : nfsdTotal content + U64 - lastOps = U64 + (nfsdTotal content - lastOps) := by omega
  rw [h4, Nat.add_mod_left, Nat.mod_eq_of_lt (by omega)]

theorem ops_delta_bootstrap_witness :
    0 < 100 ∧ 100 ≤ nfsdTotal "proc3 2 150 0" ∧ nfsdTotal "proc3 2 150 0" < U64 ∧
    (opsStep 100 (some "proc3 2 150 0")).1 = nfsdTotal "proc3 2 150 0" - 100 :=
  ⟨by decide, by decide, by decide,
   (ops_delta_bootstrap "proc3 2 150 0" 100).2.2.1 (by decide) (by decide) (by decide)⟩

/-- C10: after a successful read has stored a positive total, a later read
whose total is strictly smaller (e.g. after an nfsd counter reset) makes the
unsigned subtraction wrap modulo 2^64: the delta is the huge positive value
`2^64 - (last - current)`, and with load below threshold and no clients the
tick's verdict is ACTIVE with reason NFS activity. -/
theorem ops_wraparound_active (content : String) (lastOps : ℕ) (load threshold : ℚ)
    (hwrap : nfsdTotal content < lastOps) (hlt : lastOps < U64) (hload : load < threshold) :
    (opsStep lastOps (some content)).1 = U64 - (lastOps - nfsdTotal content) ∧
    0 < (opsStep lastOps (some content)).1 ∧
    decideVerdict (checkLoad (some load) threshold).1 []
      (opsStep lastOps (some content)).1 = .active .nfsActivity := by
  have hpos : 0 < lastOps := lt_of_le_of_lt (Nat.zero_le _) hwrap
  have hdelta : (opsStep lastOps (some content)).1 = U64 - (lastOps - nfsdTotal content) := by
    simp only [opsStep, hpos, if_pos]
    have h1 : nfsdTotal content + U64 - lastOps = U64 - (lastOps - nfsdTotal content) := by
      omega
    rw [h1, Nat.mod_eq_of_lt (by omega)]
  have hd0 : 0 < (opsStep lastOps (some content)).1 := by rw [hdelta]; omega
  exact ⟨hdelta, hd0, by simp [checkLoad, decideVerdict, hload, hd0]⟩

theorem ops_wraparound_active_witness :
    nfsdTotal "proc3 2 3 0" < 10 ∧ 10 < U64 ∧ (0 : ℚ) < 1 ∧
    decideVerdict (checkLoad (some 0) 1).1 [] (opsStep 10 (some "proc3 2 3 0")).1
      = .active .nfsActivity :=
  ⟨by decide, by decide, by norm_num,
   (ops_wraparound_active "proc3 2 3 0" 10 0 1 (by decide) (by decide) (by norm_num)).2.2⟩

/-! ### Claim theorems: idle countdown (C3) -/

theorem watchStep_facts (tmo : ℕ) (thr : ℚ) (s : WState) (t : TickIn) :
    (watchStep tmo thr false s t).2.time = t.time ∧
    (watchStep tmo thr false s t).2.before = s.idleStart ∧
    (watchStep tmo thr false s t).2.verdict = (tickSignals thr s.lastOps t).1 ∧
    (watchStep tmo thr false s t).2.after
      = (if (tickSignals thr s.lastOps t).1 ≠ .idle then t.time else s.idleStart) ∧
    ((watchStep tmo thr false s t).1).idleStart
      = (if (tickSignals thr s.lastOps t).1 ≠ .idle then t.time else s.idleStart) ∧
    ((watchStep tmo thr false s t).2.fired = true
      ↔ ((tickSignals thr s.lastOps t).1 = .idle ∧ tmo < t.time - s.idleStart)) := by
  unfold watchStep
  split_ifs with h1 h2 <;> simp_all

/-- Invariants of the non-dry-run `Watch` loop: each tick's output carries
the tick's timestamp; an active verdict sets `idleStart` to that timestamp;
the shutdown action fires exactly on idle verdicts whose duration since
`idleStart` strictly exceeds the timeout; and the `idleStart` a tick sees is
the start state or the timestamp of the most recent active tick, with every
tick in between having verdict IDLE. -/
theorem watchRun_spec (tmo : ℕ) (thr : ℚ) :
    ∀ (ticks : List TickIn) (s : WState) (i : ℕ), i < ticks.length →
    ((watchRun tmo thr false s ticks).getD i default).time
        = (ticks.getD i default).time ∧
    (((watchRun tmo thr false s ticks).getD i default).verdict ≠ .idle →
      ((watchRun tmo thr false s ticks).getD i default).after
        = ((watchRun tmo thr false s ticks).getD i default).time) ∧
    (((watchRun tmo thr false s ticks).getD i default).fired = true ↔
      (((watchRun tmo thr false s ticks).getD i default).verdict = .idle ∧
        tmo < ((watchRun tmo thr false s ticks).getD i default).time
          - ((watchRun tmo thr false s ticks).getD i default).before)) ∧
    (∃ k, k ≤ i ∧
      (∀ j, k ≤ j → j < i →
        ((watchRun tmo thr false s ticks).getD j default).verdict = .idle) ∧
      ((k = 0 ∧ ((watchRun tmo thr false s ticks).getD i default).before = s.idleStart) ∨
       (1 ≤ k ∧ ((watchRun tmo thr false s ticks).getD (k - 1) default).verdict ≠ .idle ∧
        ((watchRun tmo thr false s ticks).getD i default).before
          = ((watchRun tmo thr false s ticks).getD (k - 1) default).time))) := by
  intro ticks
  induction ticks with
  | nil => intro s i hi; simp at hi
  | cons t rest ih =>
    intro s i hi
    have hrun : watchRun tmo thr false s (t :: rest)
        = (watchStep tmo thr false s t).2
          :: watchRun tmo thr false (watchStep tmo thr false s t).1 rest := rfl
    obtain ⟨ht, hb, hv, ha, hs1, hf⟩ := watchStep_facts tmo thr s t
    cases i with
    | zero =>
      rw [hrun]
      simp only [List.getD_cons_zero]
      refine ⟨ht, fun hact => ?_, ?_, 0, le_refl 0, fun j h1 h2 => absurd h2 (by omega),
        Or.inl ⟨rfl, hb⟩⟩
      · rw [ha, ht, if_pos (hv ▸ hact)]
      · rw [hf, hv, ht, hb]
    | succ i2 =>
      rw [hrun]
      simp only [List.getD_cons_succ]
      have hi2 : i2 < rest.length := by simpa using hi
      obtain ⟨ih1, ih2, ih3, k, hk, hspan, hbase⟩ := ih ((watchStep tmo thr false s t).1) i2 hi2
      refine ⟨ih1, ih2, ih3, ?_⟩
      rcases hbase with ⟨hk0, hbefore⟩ | ⟨hk1, hkv, hbefore⟩
      · subst hk0
        by_cases hvi : (tickSignals thr s.lastOps t).1 = .idle
        · refine ⟨0, by omega, fun j h1 h2 => ?_, Or.inl ⟨rfl, ?_⟩⟩
          · cases j with
            | zero => simpa [List.getD_cons_zero, hv] using hvi
            | succ j2 =>
              simp only [List.getD_cons_succ]
              exact hspan j2 (by omega) (by omega)
          · rw [hbefore, hs1, if_neg (by simp [hvi])]
        · refine ⟨1, by omega, fun j h1 h2 => ?_, Or.inr ⟨le_refl 1, ?_, ?_⟩⟩
          · obtain ⟨j2, rfl⟩ : ∃ j2, j = j2 + 1 := ⟨j - 1, by omega⟩
            simp only [List.getD_cons_succ]
            exact hspan j2 (by omega) (by omega)
          · simpa [Nat.sub_self, List.getD_cons_zero, hv] using hvi
          · simp only [Nat.sub_self, List.getD_cons_zero]
            rw [hbefore, hs1, if_pos (by simp [hvi]), ht]
      · obtain ⟨k2, rfl⟩ : ∃ k2, k = k2 + 1 := ⟨k - 1, by omega⟩
        refine ⟨k2 + 2, by omega, fun j h1 h2 => ?_, Or.inr ⟨by omega, ?_, ?_⟩⟩
        · obtain ⟨j2, rfl⟩ : ∃ j2, j = j2 + 1 := ⟨j - 1, by omega⟩
          simp only [List.getD_cons_succ]
          exact hspan j2 (by omega) (by omega)
        · have h5 : k2 + 2 - 1 = (k2 + 1 - 1) + 1 := by omega
          rw [h5]
          simpa [List.getD_cons_succ] using hkv
        · have h5 : k2 + 2 - 1 = (k2 + 1 - 1) + 1 := by omega
          rw [h5]
          simpa [List.getD_cons_succ] using hbefore

/-- C3: in the non-dry-run loop, `idle_since` starts at the watcher's start
state; every tick with an ACTIVE verdict resets `idle_since` to that tick's
timestamp; the shutdown action fires only on an IDLE tick preceded by an
uninterrupted span of IDLE verdicts reaching back to `idle_since` (the start
time or the last ACTIVE tick's timestamp) whose accumulated duration
strictly exceeds the idle timeout; and it never fires on a tick whose
elapsed idle duration is at most the timeout. -/
theorem watcher_idle_monotonicity (tmo : ℕ) (thr : ℚ) (s : WState) (ticks : List TickIn)
    (i : ℕ) (hi : i < ticks.length) :
    (((watchRun tmo thr false s ticks).getD 0 default).before = s.idleStart) ∧
    (((watchRun tmo thr false s ticks).getD i default).time
        = (ticks.getD i default).time) ∧
    (((watchRun tmo thr false s ticks).getD i default).verdict ≠ .idle →
      ((watchRun tmo thr false s ticks).getD i default).after
        = (ticks.getD i default).time) ∧
    (((watchRun tmo thr false s ticks).getD i default).fired = true →
      ((watchRun tmo thr false s ticks).getD i default).verdict = .idle ∧
      tmo < ((watchRun tmo thr false s ticks).getD i default).time
          - ((watchRun tmo thr false s ticks).getD i default).before ∧
      (∃ k, k ≤ i ∧
        (∀ j, k ≤ j → j ≤ i →
          ((watchRun tmo thr false s ticks).getD j default).verdict = .idle) ∧
        ((k = 0 ∧
            ((watchRun tmo thr false s ticks).getD i default).before = s.idleStart) ∨
         (1 ≤ k ∧
            ((watchRun tmo thr false s ticks).getD (k - 1) default).verdict ≠ .idle ∧
            ((watchRun tmo thr false s ticks).getD i default).before
              = ((watchRun tmo thr false s ticks).getD (k - 1) default).time)))) ∧
    (((watchRun tmo thr false s ticks).getD i default).time
        - ((watchRun tmo thr false s ticks).getD i default).before ≤ tmo →
      ((watchRun tmo thr false s ticks).getD i default).fired = false) := by
  obtain ⟨h1, h2, h3, hk⟩ := watchRun_spec tmo thr ticks s i hi
  obtain ⟨-, -, -, k0, hk00, -, hbase0⟩ :=
    watchRun_spec tmo thr ticks s 0 (by omega)
  refine ⟨?_, h1, fun hact => (h2 hact).trans h1, fun hfi => ?_, fun hle => ?_⟩
  · rcases hbase0 with ⟨-, hb⟩ | ⟨hge, -, -⟩
    · exact hb
    · omega
  · obtain ⟨hidle, hdur⟩ := h3.mp hfi
    obtain ⟨k, hki, hspan, hbase⟩ := hk
    refine ⟨hidle, hdur, k, hki, fun j hj1 hj2 => ?_, hbase⟩
    rcases Nat.lt_or_ge j i with hlt | hge
    · exact hspan j hj1 hlt
    · have : j = i := by omega
      subst this
      exact hidle
  · cases hfi : ((watchRun tmo thr false s ticks).getD i default).fired
    · rfl
    · obtain ⟨-, hdur⟩ := h3.mp hfi
      omega

theorem watcher_idle_monotonicity_witness :
    (2 < ([⟨10, some 0, some ["10.0.0.2"], none⟩, ⟨20, some 0, some [], none⟩,
          ⟨30, some 0, some [], none⟩] : List TickIn).length) ∧
    (((watchRun 15 1 false ⟨0, 0⟩
        [⟨10, some 0, some ["10.0.0.2"], none⟩, ⟨20, some 0, some [], none⟩,
         ⟨30, some 0, some [], none⟩]).getD 2 default).fired = true) ∧
    ((watchRun 15 1 false ⟨0, 0⟩
        [⟨10, some 0, some ["10.0.0.2"], none⟩, ⟨20, some 0, some [], none⟩,
         ⟨30, some 0, some [], none⟩]).getD 2 default).verdict = .idle :=
  ⟨by decide, by decide,
   ((watcher_idle_monotonicity 15 1 ⟨0, 0⟩
      [⟨10, some 0, some ["10.0.0.2"], none⟩, ⟨20, some 0, some [], none⟩,
       ⟨30, some 0, some [], none⟩] 2 (by decide)).2.2.2.1 (by decide)).1⟩

/-! ### Magic packet (src/pkg/wol/wol.go and Go's net.ParseMAC) -/

/-- Hex digit value, as in Go's `xtoi`. -/
def hexVal (c : Char) : Option ℕ :=
  if '0' ≤ c ∧ c ≤ '9' then some (c.toNat - 48)
  else if 'a' ≤ c ∧ c ≤ 'f' then some (c.toNat - 87)
  else if 'A' ≤ c ∧ c ≤ 'F' then some (c.toNat - 55)
  else none

/-- The colon/dash arm of `net.ParseMAC`: groups of two hex digits joined by
the single separator character (Go's `xtoi2` checks every third byte against
`s[2]`); the final group has no trailing separator. -/
def parseHexPairs (sep : Char) : List Char → Option (List ℕ)
  | [a, b] =>
    match hexVal a, hexVal b with
    | some ha, some hb => some [ha * 16 + hb]
    | _, _ => none
  | a :: b :: c :: rest =>
    if c = sep then
      match hexVal a, hexVal b, parseHexPairs sep rest with
      | some ha, some hb, some tail => some ((ha * 16 + hb) :: tail)
      | _, _, _ => none
    else none
  | _ => none

/-- The dot arm of `net.ParseMAC`: groups of four hex digits joined by
dots, two bytes per group. -/
def parseHexQuads : List Char → Option (List ℕ)
  | [a, b, c, d] =>
    match hexVal a, hexVal b, hexVal c, hexVal d with
    | some ha, some hb, some hc, some hd => some [ha * 16 + hb, hc * 16 + hd]
    | _, _, _, _ => none
  | a :: b :: c :: d :: e :: rest =>
    if e = '.' then
      match hexVal a, hexVal b, hexVal c, hexVal d, parseHexQuads rest with
      | some ha, some hb, some hc, some hd, some tail =>
        some ((ha * 16 + hb) :: (hc * 16 + hd) :: tail)
      | _, _, _, _, _ => none
    else none
  | _ => none

/-- Model of Go's `net.ParseMAC` (called by `NewMagicPacket`): a string
shorter than 14 bytes is rejected; `s[2]` being `:` or `-` selects the
two-hex-digit-group form with 6, 8 or 20 groups; otherwise `s[4]` being `.`
selects the four-hex-digit-group form with 3, 4 or 10 groups; anything else
is an error.  In particular a bare-hex string has no separator at index 2
or 4 and is rejected. -/
def parseMAC (s : String) : Option (List ℕ) :=
  let cs := s.toList
  if cs.length < 14 then none
  else
    let c2 := cs.getD 2 ' '
    if c2 = ':' ∨ c2 = '-' then
      if (cs.length + 1) % 3 = 0 ∧
          ((cs.length + 1) / 3 = 6 ∨ (cs.length + 1) / 3 = 8 ∨ (cs.length + 1) / 3 = 20) then
        parseHexPairs c2 cs
      else none
    else if cs.getD 4 ' ' = '.' then
      if (cs.length + 1) % 5 = 0 ∧
          (2 * ((cs.length + 1) / 5) = 6 ∨ 2 * ((cs.length + 1) / 5) = 8 ∨
            2 * ((cs.length + 1) / 5) = 20) then
        parseHexQuads cs
      else none
    else none

/-- Go's `copy(dst[off:], src)`: writes `min (dst.length - off) src.length`
bytes of `src` at offset `off`, leaving the rest of `dst` unchanged. -/
def copyAt (dst : List ℕ) (off : ℕ) (src : List ℕ) : List ℕ :=
  dst.take off ++ src.take (dst.length - off) ++
    dst.drop (off + min src.length (dst.length - off))

/-- The body-filling loop of `NewMagicPacket`: `n` copies of the MAC at
offsets `off, off+6, ...`. -/
def fillBody (mac : List ℕ) : List ℕ → ℕ → ℕ → List ℕ
  | packet, _, 0 => packet
  | packet, off, n + 1 => fillBody mac (copyAt packet off mac) (off + 6) n

/-- Embedding of `NewMagicPacket`: parse the MAC, fill a zeroed 102-byte
frame with the 6-byte `0xFF` header, then copy the MAC 16 times starting at
offset 6. -/
def newMagicPacket (macAddr : String) : Option (List ℕ) :=
  (parseMAC macAddr).map fun mac =>
    fillBody mac (copyAt (List.replicate 102 0) 0 [255, 255, 255, 255, 255, 255]) 6 16

/-- `n` concatenated copies of the MAC. -/
def macRep (mac : List ℕ) : ℕ → List ℕ
  | 0 => []
  | n + 1 => mac ++ macRep mac n

theorem macRep_length (mac : List ℕ) (hm : mac.length = 6) :
    ∀ n, (macRep mac n).length = 6 * n := by
  intro n
  induction n with
  | zero => rfl
  | succ n ih => simp [macRep, ih, hm]; ring

theorem copyAt_exact (pre mac rest : List ℕ) (hm : mac.length ≤ rest.length) :
    copyAt (pre ++ rest) pre.length mac = pre ++ mac ++ rest.drop mac.length := by
  unfold copyAt
  have h1 : (pre ++ rest).take pre.length = pre := List.take_left pre rest
  have h2 : (pre ++ rest).length - pre.length = rest.length := by simp
  have h3 : mac.take rest.length = mac := List.take_of_length_le hm
  have h4 : min mac.length rest.length = mac.length := min_eq_left hm
  rw [h1, h2, h3, h4]
  congr 1
  exact List.drop_append mac.length

theorem fillBody_fill (mac : List ℕ) (hm : mac.length = 6) :
    ∀ (n : ℕ) (pre rest : List ℕ), rest.length = 6 * n →
      fillBody mac (pre ++ rest) pre.length n = pre ++ macRep mac n := by
  intro n
  induction n with
  | zero =>
    intro pre rest hr
    have : rest = [] := List.length_eq_zero.mp (by omega)
    subst this
    simp [fillBody, macRep]
  | succ n ih =>
    intro pre rest hr
    have hle : mac.length ≤ rest.length := by omega
    show fillBody mac (copyAt (pre ++ rest) pre.length mac) (pre.length + 6) n
        = pre ++ macRep mac (n + 1)
    rw [copyAt_exact pre mac rest hle]
    have hlen : pre.length + 6 = (pre ++ mac).length := by simp [hm]
    rw [hlen, List.append_assoc pre mac (rest.drop mac.length),
      ← List.append_assoc pre mac (rest.drop mac.length),
      ih (pre ++ mac) (rest.drop mac.length) (by simp [hm]; omega)]
    simp [macRep]

theorem macRep_drop (mac : List ℕ) (hm : mac.length = 6) :
    ∀ (i n : ℕ), i ≤ n → (macRep mac n).drop (6 * i) = macRep mac (n - i) := by
  intro i
  induction i with
  | zero => intro n _; simp
  | succ i ih =>
    intro n hin
    obtain ⟨n2, rfl⟩ : ∃ n2, n = n2 + 1 := ⟨n - 1, by omega⟩
    have h1 : 6 * (i + 1) = mac.length + 6 * i := by omega
    show (mac ++ macRep mac n2).drop (6 * (i + 1)) = macRep mac (n2 + 1 - (i + 1))
    rw [h1, List.drop_append, ih n2 (by omega)]
    congr 1
    omega

/-- C9 (amended): a MAC rejected by the parser yields an error and no frame;
for every textual MAC accepted by the parser with a six-byte result — the
colon- and dash-separated (and dotted) forms — `NewMagicPacket` returns a
102-byte frame whose first six bytes are `0xFF` and whose bytes
`6+6i .. 6+6i+5` equal the MAC for every `i < 16`.  (Bare-hex strings are
not accepted: they are rejected as malformed.) -/
theorem magic_frame_layout (s : String) :
    (parseMAC s = none → newMagicPacket s = none) ∧
    (∀ mac, parseMAC s = some mac → mac.length = 6 →
      newMagicPacket s = some (List.replicate 6 255 ++ macRep mac 16) ∧
      (List.replicate 6 255 ++ macRep mac 16).length = 102 ∧
      (List.replicate 6 255 ++ macRep mac 16).take 6 = List.replicate 6 255 ∧
      ∀ i, i < 16 →
        ((List.replicate 6 255 ++ macRep mac 16).drop (6 + 6 * i)).take 6 = mac) := by
  constructor
  · intro h
    simp [newMagicPacket, h]
  · intro mac hmac hm
    have hinit : copyAt (List.replicate 102 0) 0 [255, 255, 255, 255, 255, 255]
        = List.replicate 6 255 ++ List.replicate 96 0 := by decide
    have hfill := fillBody_fill mac hm 16 (List.replicate 6 255) (List.replicate 96 0) (by simp)
    simp only [List.length_replicate] at hfill
    have hpkt : newMagicPacket s = some (List.replicate 6 255 ++ macRep mac 16) := by
      unfold newMagicPacket
      rw [hmac, Option.map_some', hinit, hfill]
    have htake : (List.replicate (6 : ℕ) (255 : ℕ) ++ macRep mac 16).take 6
        = List.replicate 6 255 := List.take_left' (by simp)
    refine ⟨hpkt, by simp [macRep_length mac hm], htake, fun i hi => ?_⟩
    have hdrop : (List.replicate (6 : ℕ) (255 : ℕ) ++ macRep mac 16).drop (6 + 6 * i)
        = (macRep mac 16).drop (6 * i) := by
      have h := @List.drop_append ℕ (List.replicate 6 255) (macRep mac 16) (6 * i)
      simpa using h
    rw [hdrop, macRep_drop mac hm i 16 (by omega)]
    obtain ⟨r, hr⟩ : ∃ r, 16 - i = r + 1 := ⟨15 - i, by omega⟩
    rw [hr]
    show (mac ++ macRep mac r).take 6 = mac
    rw [← hm, List.take_left]

theorem magic_frame_layout_witness :
    parseMAC "AA:BB:CC:DD:EE:FF" = some [170, 187, 204, 221, 238, 255] ∧
    ([170, 187, 204, 221, 238, 255] : List ℕ).length = 6 ∧
    newMagicPacket "AA:BB:CC:DD:EE:FF"
      = some (List.replicate 6 255 ++ macRep [170, 187, 204, 221, 238, 255] 16) :=
  ⟨by decide, by decide,
   ((magic_frame_layout "AA:BB:CC:DD:EE:FF").2 [170, 187, 204, 221, 238, 255]
     (by decide) (by decide)).1⟩

/-- C9 counterexample: the bare-hex spelling of a well-formed MAC is
rejected — `net.ParseMAC` requires a separator at index 2 or 4 (and a
minimum length of 14), so `NewMagicPacket` returns an error and no frame,
where the claim promises the 102-byte frame. -/
theorem magic_packet_bare_hex_counterexample :
    parseMAC "AABBCCDDEEFF" = none ∧ newMagicPacket "AABBCCDDEEFF" = none := by
  exact ⟨by decide, by decide⟩

/-! ### Deployer (deployer package: Apply, applyHost, RunUndeploy)

The deployer is embedded as an effect-trace semantics.  The abstract
environment `Env` plays the role of the injected `SSHClient`,
`ArtifactBuilder` and `LocalExecutor` seams: it supplies probe results,
remote command output, local file contents, and the success or failure of
each external operation.  Each run returns the ordered list of performed
side effects together with an optional error, mirroring the early-return
control flow of the Go code (the exact wording of error strings is
abbreviated; only which step failed matters). -/

/-- `config.MountConfig` (the Go field names `Local`/`Remote` are Lean
keywords-adjacent, hence `localDir`/`remoteDir`). -/
structure MountConfig where
  localDir : String
  remoteDir : String
  options : String
deriving DecidableEq

/-- `config.HostConfig`. -/
structure HostConfig where
  hostAlias : String
  mounts : List MountConfig
  idleTimeout : String
  wakeTimeout : String
  shutdownCmd : String
deriving DecidableEq

/-- `discover.Probe` result. -/
structure RemoteInfo where
  hostname : String
  arch : String
  ip : String
  mac : String
deriving DecidableEq

/-- `deployer.ApplyOptions`. -/
structure ApplyOptions where
  dryRun : Bool
  watcherDryRun : Bool
deriving DecidableEq

/-- `templates.ExportInfo`. -/
structure ExportInfo where
  path : String
  clientIP : String
deriving DecidableEq

/-- `templates.Config`. -/
structure TmplConfig where
  serverIP : String
  clientIP : String
  macAddr : String
  remoteDir : String
  localDir : String
  binaryPath : String
  idleTimeout : String
  wakeTimeout : String
  loadThreshold : String
  watcherDryRun : Bool
  exports : List ExportInfo
deriving DecidableEq

/-- Rendering of `ClientMountTmpl` (templates.go), byte for byte. -/
def renderMount (c : TmplConfig) : String :=
  "[Unit]\nDescription=AutoNFS Mount for " ++ c.remoteDir ++
  "\nAfter=network.target\n\n[Mount]\nWhat=" ++ c.serverIP ++ ":" ++ c.remoteDir ++
  "\nWhere=" ++ c.localDir ++
  "\nType=nfs\nOptions=rw,soft,timeo=100,retrans=3,actimeo=60\n" ++
  "# 關鍵：掛載前先喚醒，設定 10 秒逾時避免卡死\nExecStartPre=" ++ c.binaryPath ++
  " wake --mac \"" ++ c.macAddr ++ "\" --ip \"" ++ c.serverIP ++
  "\" --port 2049 --timeout 10s\n"

/-- Rendering of `ClientAutomountTmpl`. -/
def renderAutomount (c : TmplConfig) : String :=
  "[Unit]\nDescription=Automount for " ++ c.localDir ++ "\n\n[Automount]\nWhere=" ++
  c.localDir ++ "\nTimeoutIdleSec=" ++ c.idleTimeout ++
  "\n\n[Install]\nWantedBy=multi-user.target\n"

/-- Rendering of `ServerServiceTmpl` (the ` --dry-run` flag is appended
exactly when `watcherDryRun` is set). -/
def renderService (c : TmplConfig) : String :=
  "[Unit]\nDescription=AutoNFS Idle Watcher\nAfter=network.target nfs-server.service\n\n" ++
  "[Service]\nType=simple\nExecStart=" ++ c.binaryPath ++ " watch --timeout " ++
  c.idleTimeout ++ " --load " ++ c.loadThreshold ++
  (if c.watcherDryRun then " --dry-run" else "") ++
  "\nRestart=always\nRestartSec=10\n\n[Install]\nWantedBy=multi-user.target\n"

/-- Rendering of `ServerExportsTmpl`: one block per export. -/
def renderExports (c : TmplConfig) : String :=
  String.join (c.exports.map fun e =>
    "\n" ++ e.path ++ " " ++ e.clientIP ++ "(rw,sync,no_subtree_check,no_root_squash)\n")

/-- One observable side effect of a deployer run. -/
inductive Effect
  | build (arch : String)
  | remoteRead (path : String)
  | upload (what : String) (remotePath : String)
  | remoteExec (cmds : List String)
  | localRead (path : String)
  | localWriteFile (path : String) (content : String)
  | runLocal (args : List String)
deriving DecidableEq

/-- The abstract environment behind the injected seams. -/
structure Env where
  probe : Except String RemoteInfo
  outboundIP : String → String
  buildOk : Bool
  remoteRun : String → Option String
  uploadOk : String → Bool
  remoteExecOk : List String → Bool
  localFiles : String → Option String
  localWriteOk : String → Bool
  runLocalOk : List String → Bool
  escapePath : String → String
  executablePath : String

def serviceUnitPath : String := "/etc/systemd/system/autonfs-watcher.service"

def exportsFilePath : String := "/etc/exports.d/autonfs.exports"

/-- The fused remote installation command list of `applyHost`. -/
def installCmds : List String :=
  ["mv /tmp/autonfs /usr/local/bin/autonfs",
   "chmod +x /usr/local/bin/autonfs",
   "mv /tmp/autonfs-watcher.service /etc/systemd/system/autonfs-watcher.service",
   "mkdir -p /etc/exports.d",
   "mv /tmp/autonfs.exports /etc/exports.d/autonfs.exports",
   "systemctl daemon-reload",
   "systemctl enable --now autonfs-watcher.service",
   "exportfs -ra"]

def restartWatcherCmd : String := "systemctl restart autonfs-watcher.service"

/-- `remoteHasChange`: compare the remote `cat` output to the freshly
rendered content; a failed command counts as changed. -/
def remoteHasChange (env : Env) (path content : String) : Bool :=
  match env.remoteRun ("cat " ++ path) with
  | none => true
  | some out => out != content

/-- `hasChange`: compare a local file to the rendered content; a read error
(missing file) counts as changed. -/
def hasChange (env : Env) (path content : String) : Bool :=
  match env.localFiles path with
  | none => true
  | some existing => existing != content

/-- The template variables for the server-side artifacts built by
`applyHost` (defaults `5m` / `120s` applied, load threshold fixed `0.5`,
one export per mount pointing at the local outbound IP). -/
def hostTmplCfg (env : Env) (opts : ApplyOptions) (host : HostConfig) (info : RemoteInfo) :
    TmplConfig :=
  ⟨info.ip, env.outboundIP info.ip, info.mac, "", "", "/usr/local/bin/autonfs",
   (if host.idleTimeout = "" then "5m" else host.idleTimeout),
   (if host.wakeTimeout = "" then "120s" else host.wakeTimeout),
   "0.5", opts.watcherDryRun,
   host.mounts.map fun m => ⟨m.remoteDir, env.outboundIP info.ip⟩⟩

/-- The template variables for one mount's client units (binary path is the
running executable, other fields left at their zero values). -/
def mountTmplCfg (env : Env) (host : HostConfig) (info : RemoteInfo) (m : MountConfig) :
    TmplConfig :=
  ⟨info.ip, "", info.mac, m.remoteDir, m.localDir, env.executablePath,
   host.idleTimeout, "", "", false, []⟩

def mountFilePath (env : Env) (m : MountConfig) : String :=
  "/etc/systemd/system/" ++ env.escapePath m.localDir ++ ".mount"

def automountFilePath (env : Env) (m : MountConfig) : String :=
  "/etc/systemd/system/" ++ env.escapePath m.localDir ++ ".automount"

def enableArgsOf (env : Env) (m : MountConfig) : List String :=
  ["sudo", "systemctl", "enable", "--now", env.escapePath m.localDir ++ ".automount"]

def restartArgsOf (env : Env) (m : MountConfig) : List String :=
  ["sudo", "systemctl", "restart", env.escapePath m.localDir ++ ".automount"]

def reloadArgs : List String := ["sudo", "systemctl", "daemon-reload"]

/-- Steps 5 of `applyHost` (remote diff, uploads, fused install).  In
dry-run the whole block is replaced by log lines: no effects.  Otherwise the
watcher unit is diffed (and the exports file read, result discarded), the
three artifacts are unconditionally uploaded, and the fused install command
runs, with a restart appended exactly when the watcher unit changed. -/
def remotePhase (env : Env) (opts : ApplyOptions) (serviceContent exportsContent : String) :
    List Effect × Option String :=
  if opts.dryRun then ([], none)
  else
    let serviceChanged := remoteHasChange env serviceUnitPath serviceContent
    let effs1 := [Effect.remoteRead serviceUnitPath, Effect.remoteRead exportsFilePath,
                  Effect.upload "binary" "/tmp/autonfs"]
    if !env.uploadOk "/tmp/autonfs" then (effs1, some "SCP binary failed")
    else
      let effs2 := effs1 ++ [Effect.upload serviceContent "/tmp/autonfs-watcher.service"]
      if !env.uploadOk "/tmp/autonfs-watcher.service" then (effs2, some "upload service failed")
      else
        let effs3 := effs2 ++ [Effect.upload exportsContent "/tmp/autonfs.exports"]
        if !env.uploadOk "/tmp/autonfs.exports" then (effs3, some "upload exports failed")
        else
          let cmds := installCmds ++ (if serviceChanged then [restartWatcherCmd] else [])
          let effs4 := effs3 ++ [Effect.remoteExec cmds]
          if !env.remoteExecOk cmds then (effs4, some "remote install failed")
          else (effs4, none)

/-- One iteration of the local mount loop of `applyHost`: diff and
conditionally rewrite the `.mount` and `.automount` units (writes skipped in
dry-run), always enable-and-start the automount, and restart it (after a
daemon-reload whose error is ignored) only when a unit changed.  Returns
(effects, unitChanged, error). -/
def localMountStep (env : Env) (opts : ApplyOptions) (host : HostConfig) (info : RemoteInfo)
    (m : MountConfig) : List Effect × Bool × Option String :=
  let mcfg := mountTmplCfg env host info m
  let mountContent := renderMount mcfg
  let automountContent := renderAutomount mcfg
  let c1 := hasChange env (mountFilePath env m) mountContent
  let e1 : List Effect := [.localRead (mountFilePath env m)]
  let w1 : List Effect :=
    if c1 && !opts.dryRun then [.localWriteFile (mountFilePath env m) mountContent] else []
  if c1 && !opts.dryRun && !env.localWriteOk (mountFilePath env m) then
    (e1 ++ w1, c1, some "failed to write local file")
  else
    let c2 := hasChange env (automountFilePath env m) automountContent
    let e2 : List Effect := [.localRead (automountFilePath env m)]
    let w2 : List Effect :=
      if c2 && !opts.dryRun then
        [.localWriteFile (automountFilePath env m) automountContent]
      else []
    if c2 && !opts.dryRun && !env.localWriteOk (automountFilePath env m) then
      (e1 ++ w1 ++ e2 ++ w2, c1 || c2, some "failed to write local file")
    else
      let unitChanged := c1 || c2
      let e3 : List Effect := if opts.dryRun then [] else [.runLocal (enableArgsOf env m)]
      if !opts.dryRun && !env.runLocalOk (enableArgsOf env m) then
        (e1 ++ w1 ++ e2 ++ w2 ++ e3, unitChanged, some "failed to enable automount")
      else
        let e4 : List Effect :=
          if unitChanged && !opts.dryRun then
            [.runLocal reloadArgs, .runLocal (restartArgsOf env m)]
          else []
        if unitChanged && !opts.dryRun && !env.runLocalOk (restartArgsOf env m) then
          (e1 ++ w1 ++ e2 ++ w2 ++ e3 ++ e4, unitChanged, some "failed to restart automount")
        else
          (e1 ++ w1 ++ e2 ++ w2 ++ e3 ++ e4, unitChanged, none)

/-- The local mount loop (step 6 of `applyHost`), threading the
`anyHostChange` accumulator and aborting on the first error. -/
def localLoop (env : Env) (opts : ApplyOptions) (host : HostConfig) (info : RemoteInfo) :
    List MountConfig → Bool → List Effect × Bool × Option String
  | [], anyChange => ([], anyChange, none)
  | m :: rest, anyChange =>
    let r := localMountStep env opts host info m
    match r.2.2 with
    | some e => (r.1, anyChange || r.2.1, some e)
    | none =>
      let r2 := localLoop env opts host info rest (anyChange || r.2.1)
      (r.1 ++ r2.1, r2.2.1, r2.2.2)

/-- `applyHost` (deployer package): probe, cross-build (also in dry-run),
render, remote phase, local loop, and a final daemon-reload when any local
unit changed (skipped in dry-run). -/
def applyHost (env : Env) (opts : ApplyOptions) (host : HostConfig) :
    List Effect × Option String :=
  match env.probe with
  | .error e => ([], some e)
  | .ok info =>
    let buildEffs : List Effect := [.build info.arch]
    if !env.buildOk then (buildEffs, some "build failed")
    else
      let cfg := hostTmplCfg env opts host info
      let r := remotePhase env opts (renderService cfg) (renderExports cfg)
      match r.2 with
      | some e => (buildEffs ++ r.1, some e)
      | none =>
        let l := localLoop env opts host info host.mounts false
        match l.2.2 with
        | some e => (buildEffs ++ r.1 ++ l.1, some e)
        | none =>
          let finalEffs : List Effect :=
            if l.2.1 && !opts.dryRun then [.runLocal reloadArgs] else []
          (buildEffs ++ r.1 ++ l.1 ++ finalEffs, none)

/-- `Deployer.Apply`: process hosts strictly in list order; the first
failing host aborts the run with a wrapped error; no rollback happens (the
effects of earlier hosts stay in the trace, and nothing else is emitted). -/
def Apply (env : Env) (opts : ApplyOptions) : List HostConfig → List Effect × Option String
  | [] => ([], none)
  | h :: rest =>
    let r := applyHost env opts h
    match r.2 with
    | some e => (r.1, some ("failed to deploy host " ++ h.hostAlias ++ ": " ++ e))
    | none =>
      let r2 := Apply env opts rest
      (r.1 ++ r2.1, r2.2)

/-! ### Undeploy -/

/-- The environment seen by `RunUndeploy`. -/
structure UndeployEnv where
  escapePath : String → String
  connectOk : Bool
  remoteStepOk : String → Bool

/-- `deployer.Options` as used by `RunUndeploy`. -/
structure UndeployOptions where
  sshAlias : String
  localDir : String

/-- The seven local cleanup commands of `RunUndeploy`, in order; every one
is run with its error discarded. -/
def undeployLocalCmds (unitName : String) : List (List String) :=
  [["sudo", "-v"],
   ["sudo", "systemctl", "disable", "--now", unitName ++ ".automount"],
   ["sudo", "systemctl", "stop", unitName ++ ".mount"],
   ["sudo", "systemctl", "disable", unitName ++ ".mount"],
   ["sudo", "rm", "-f", "/etc/systemd/system/" ++ unitName ++ ".mount"],
   ["sudo", "rm", "-f", "/etc/systemd/system/" ++ unitName ++ ".automount"],
   ["sudo", "systemctl", "daemon-reload"]]

/-- The five remote cleanup commands, joined by `&&` into one shell
invocation by `RunUndeploy`. -/
def cleanupCmds : List String :=
  ["systemctl disable --now autonfs-watcher.service",
   "rm -f /etc/systemd/system/autonfs-watcher.service",
   "rm -f /etc/exports.d/autonfs.exports",
   "systemctl daemon-reload",
   "exportfs -r"]

/-- Shell `&&`-chain semantics: run commands left to right, stopping after
the first failure.  Returns the commands that actually ran and whether the
whole chain succeeded. -/
def chainExec (ok : String → Bool) : List String → List String × Bool
  | [] => ([], true)
  | c :: rest =>
    if ok c then
      let r := chainExec ok rest
      (c :: r.1, r.2)
    else ([c], false)

/-- `RunUndeploy`: run every local cleanup command unconditionally (errors
ignored), then, when an SSH alias is supplied, connect and run the remote
cleanup as one `&&`-joined terminal command; a connection or remote failure
is returned as the error. -/
def RunUndeploy (env : UndeployEnv) (opts : UndeployOptions) : List Effect × Option String :=
  let localEffs := (undeployLocalCmds (env.escapePath opts.localDir)).map Effect.runLocal
  if opts.sshAlias = "" then (localEffs, none)
  else if !env.connectOk then (localEffs, some "SSH connection failed")
  else
    let r := chainExec env.remoteStepOk cleanupCmds
    if r.2 then (localEffs ++ [Effect.remoteExec r.1], none)
    else (localEffs ++ [Effect.remoteExec r.1], some "remote cleanup failed")

/-! ### Effect classifiers -/

def Effect.isUpload : Effect → Bool
  | .upload _ _ => true
  | _ => false

def Effect.isLocalWrite : Effect → Bool
  | .localWriteFile _ _ => true
  | _ => false

def Effect.isRemoteRead : Effect → Bool
  | .remoteRead _ => true
  | _ => false

/-- Is this argument vector a `systemctl restart`? -/
def isRestartArgs : List String → Bool
  | "sudo" :: "systemctl" :: "restart" :: _ => true
  | _ => false

/-- How many service/unit restarts an effect performs (remote restarts are
commands inside the fused install; local ones are `systemctl restart`). -/
def Effect.restartCount : Effect → ℕ
  | .remoteExec cmds => (cmds.filter (fun c => c == restartWatcherCmd)).length
  | .runLocal args => if isRestartArgs args then 1 else 0
  | _ => 0

/-! ### Concrete demonstration inputs for the deployer claims -/

def demoInfo : RemoteInfo := ⟨"srv", "x86_64", "192.168.1.50", "AA:BB:CC:DD:EE:FF"⟩

def demoMount : MountConfig := ⟨"/mnt/data", "/data", ""⟩

def demoHost : HostConfig := ⟨"server", [demoMount], "10m", "", ""⟩

/-- The server-side template variables `applyHost` derives for `demoHost`
against `demoEnv` (outbound IP `192.168.1.100`). -/
def demoSvcCfg : TmplConfig :=
  ⟨"192.168.1.50", "192.168.1.100", "AA:BB:CC:DD:EE:FF", "", "", "/usr/local/bin/autonfs",
   "10m", "120s", "0.5", false, [⟨"/data", "192.168.1.100"⟩]⟩

/-- The client-side template variables for `demoMount`. -/
def demoMountCfg : TmplConfig :=
  ⟨"192.168.1.50", "", "AA:BB:CC:DD:EE:FF", "/data", "/mnt/data", "/usr/local/bin/autonfs",
   "10m", "", "", false, []⟩

/-- An environment whose remote and local filesystems already hold exactly
the artifacts `applyHost` would render — the converged state after a
successful apply — and in which every operation succeeds. -/
def demoEnv : Env :=
  ⟨.ok demoInfo, fun _ => "192.168.1.100", true,
   fun c =>
     if c = "cat /etc/systemd/system/autonfs-watcher.service" then
       some (renderService demoSvcCfg)
     else none,
   fun _ => true, fun _ => true,
   fun p =>
     if p = "/etc/systemd/system/mnt-data.mount" then some (renderMount demoMountCfg)
     else if p = "/etc/systemd/system/mnt-data.automount" then
       some (renderAutomount demoMountCfg)
     else none,
   fun _ => true, fun _ => true, fun _ => "mnt-data", "/usr/local/bin/autonfs"⟩

/-- C5 counterexample: even when the remote and local filesystems already
match the rendered artifacts, a re-run of apply (dry-run off) still uploads
the binary and still executes the fused install command whose `mv` steps
replace the remote service unit and exports file — the claimed "zero file
writes / file-replacing operations" does not hold for the remote side. -/
theorem apply_idempotence_counterexample :
    (applyHost demoEnv ⟨false, false⟩ demoHost).2 = none ∧
    Effect.upload "binary" "/tmp/autonfs" ∈ (applyHost demoEnv ⟨false, false⟩ demoHost).1 ∧
    Effect.remoteExec installCmds ∈ (applyHost demoEnv ⟨false, false⟩ demoHost).1 ∧
    "mv /tmp/autonfs-watcher.service /etc/systemd/system/autonfs-watcher.service"
      ∈ installCmds := by
  refine ⟨by decide, by decide, by decide, by decide⟩

/-- C6 counterexample: with dry-run set, `applyHost` still performs the
cross-build (the claim says the cross-build is skipped), and it performs no
remote read at all — the remote diff is skipped, so the preview does not
compute which remote files would change. -/
theorem dry_run_counterexample :
    Effect.build "x86_64" ∈ (applyHost demoEnv ⟨true, false⟩ demoHost).1 ∧
    (∀ e ∈ (applyHost demoEnv ⟨true, false⟩ demoHost).1, e.isRemoteRead = false) := by
  refine ⟨by decide, by decide⟩

/-- An undeploy environment in which the first remote cleanup step (the
`systemctl disable` of the watcher) fails. -/
def demoUEnvFail : UndeployEnv :=
  ⟨fun _ => "mnt-data", true,
   fun c => c != "systemctl disable --now autonfs-watcher.service"⟩

/-- C8 counterexample: the remote cleanup commands are joined by `&&` into
one shell invocation, so when the first step fails the removal of the unit
file and exports file, the reload and the re-export never run — the failure
of one step does prevent the remaining cleanup steps, contrary to the
claimed best-effort behaviour (only the local steps are best-effort). -/
theorem undeploy_counterexample :
    RunUndeploy demoUEnvFail ⟨"server", "/mnt/data"⟩
      = ((undeployLocalCmds "mnt-data").map Effect.runLocal
          ++ [Effect.remoteExec ["systemctl disable --now autonfs-watcher.service"]],
         some "remote cleanup failed") ∧
    "rm -f /etc/systemd/system/autonfs-watcher.service" ∈ cleanupCmds ∧
    "rm -f /etc/systemd/system/autonfs-watcher.service"
      ∉ (chainExec demoUEnvFail.remoteStepOk cleanupCmds).1 := by
  refine ⟨by decide, by decide, by decide⟩

/-! ### Deployer theorems -/

/-- Every external operation of the environment succeeds. -/
def EnvOk (env : Env) : Prop :=
  env.buildOk = true ∧ (∀ p, env.uploadOk p = true) ∧ (∀ cmds, env.remoteExecOk cmds = true) ∧
  (∀ args, env.runLocalOk args = true) ∧ (∀ p, env.localWriteOk p = true)

/-- The remote and local filesystems already hold exactly the artifacts
`applyHost` would render for `host` — the converged state after an apply. -/
def HostMatches (env : Env) (opts : ApplyOptions) (host : HostConfig) (info : RemoteInfo) :
    Prop :=
  env.probe = .ok info ∧
  env.remoteRun ("cat " ++ serviceUnitPath)
    = some (renderService (hostTmplCfg env opts host info)) ∧
  ∀ m ∈ host.mounts,
    env.localFiles (mountFilePath env m) = some (renderMount (mountTmplCfg env host info m)) ∧
    env.localFiles (automountFilePath env m)
      = some (renderAutomount (mountTmplCfg env host info m))

/-- The per-mount effects of one converged local iteration. -/
def mountCleanEffects (env : Env) (m : MountConfig) : List Effect :=
  [.localRead (mountFilePath env m), .localRead (automountFilePath env m),
   .runLocal (enableArgsOf env m)]

theorem localMountStep_unchanged (env : Env) (wdr : Bool) (host : HostConfig)
    (info : RemoteInfo) (m : MountConfig) (hok : EnvOk env)
    (h1 : env.localFiles (mountFilePath env m)
      = some (renderMount (mountTmplCfg env host info m)))
    (h2 : env.localFiles (automountFilePath env m)
      = some (renderAutomount (mountTmplCfg env host info m))) :
    localMountStep env ⟨false, wdr⟩ host info m = (mountCleanEffects env m, false, none) := by
  have hc1 : hasChange env (mountFilePath env m)
      (renderMount (mountTmplCfg env host info m)) = false := by
    simp [hasChange, h1]
  have hc2 : hasChange env (automountFilePath env m)
      (renderAutomount (mountTmplCfg env host info m)) = false := by
    simp [hasChange, h2]
  simp [localMountStep, hc1, hc2, hok.2.2.2.1 (enableArgsOf env m), mountCleanEffects]

theorem localLoop_unchanged (env : Env) (wdr : Bool) (host : HostConfig) (info : RemoteInfo)
    (hok : EnvOk env) :
    ∀ (mounts : List MountConfig) (b : Bool),
      (∀ m ∈ mounts,
        env.localFiles (mountFilePath env m)
          = some (renderMount (mountTmplCfg env host info m)) ∧
        env.localFiles (automountFilePath env m)
          = some (renderAutomount (mountTmplCfg env host info m))) →
      localLoop env ⟨false, wdr⟩ host info mounts b
        = ((mounts.map (mountCleanEffects env)).flatten, b, none) := by
  intro mounts
  induction mounts with
  | nil => intro b _; simp [localLoop]
  | cons m rest ih =>
    intro b hm
    have hstep := localMountStep_unchanged env wdr host info m hok
      (hm m (by simp)).1 (hm m (by simp)).2
    simp only [localLoop, hstep, Bool.or_false]
    rw [ih b (fun m2 hm2 => hm m2 (List.mem_cons_of_mem _ hm2))]
    simp

/-- The full effect trace of a converged `applyHost`. -/
def hostCleanEffects (env : Env) (wdr : Bool) (host : HostConfig) (info : RemoteInfo) :
    List Effect :=
  [Effect.build info.arch, .remoteRead serviceUnitPath, .remoteRead exportsFilePath,
   .upload "binary" "/tmp/autonfs",
   .upload (renderService (hostTmplCfg env ⟨false, wdr⟩ host info)) "/tmp/autonfs-watcher.service",
   .upload (renderExports (hostTmplCfg env ⟨false, wdr⟩ host info)) "/tmp/autonfs.exports",
   .remoteExec installCmds]
  ++ (host.mounts.map (mountCleanEffects env)).flatten

theorem applyHost_unchanged (env : Env) (wdr : Bool) (host : HostConfig) (info : RemoteInfo)
    (hok : EnvOk env) (hmatch : HostMatches env ⟨false, wdr⟩ host info) :
    applyHost env ⟨false, wdr⟩ host = (hostCleanEffects env wdr host info, none) := by
  obtain ⟨hprobe, hsvc, hmounts⟩ := hmatch
  have hnochange : remoteHasChange env serviceUnitPath
      (renderService (hostTmplCfg env ⟨false, wdr⟩ host info)) = false := by
    simp [remoteHasChange, hsvc]
  have hremote : remotePhase env ⟨false, wdr⟩
      (renderService (hostTmplCfg env ⟨false, wdr⟩ host info))
      (renderExports (hostTmplCfg env ⟨false, wdr⟩ host info))
      = ([Effect.remoteRead serviceUnitPath, .remoteRead exportsFilePath,
          .upload "binary" "/tmp/autonfs",
          .upload (renderService (hostTmplCfg env ⟨false, wdr⟩ host info))
            "/tmp/autonfs-watcher.service",
          .upload (renderExports (hostTmplCfg env ⟨false, wdr⟩ host info))
            "/tmp/autonfs.exports",
          .remoteExec installCmds], none) := by
    simp [remotePhase, hnochange, hok.2.1, hok.2.2.1]
  have hloc := localLoop_unchanged env wdr host info hok host.mounts false hmounts
  simp [applyHost, hprobe, hok.1, hremote, hloc, hostCleanEffects]

theorem mountCleanEffects_classify (env : Env) (m : MountConfig) :
    ∀ e ∈ mountCleanEffects env m,
      e.isLocalWrite = false ∧ e.restartCount = 0 ∧ e.isUpload = false := by
  intro e he
  simp only [mountCleanEffects, List.mem_cons, List.mem_singleton] at he
  rcases he with rfl | rfl | rfl | h
  · exact ⟨rfl, rfl, rfl⟩
  · exact ⟨rfl, rfl, rfl⟩
  · exact ⟨rfl, by simp [Effect.restartCount, enableArgsOf, isRestartArgs], rfl⟩
  · simp at h

theorem hostCleanEffects_classify (env : Env) (wdr : Bool) (host : HostConfig)
    (info : RemoteInfo) :
    (∀ e ∈ hostCleanEffects env wdr host info,
      e.isLocalWrite = false ∧ e.restartCount = 0) ∧
    ((hostCleanEffects env wdr host info).filter Effect.isUpload).length = 3 ∧
    (∀ m ∈ host.mounts,
      Effect.runLocal (enableArgsOf env m) ∈ hostCleanEffects env wdr host info) := by
  refine ⟨?_, ?_, ?_⟩
  · intro e he
    simp only [hostCleanEffects, List.mem_append, List.mem_cons, List.mem_singleton] at he
    rcases he with (rfl | rfl | rfl | rfl | rfl | rfl | rfl | h) | h
    · exact ⟨rfl, rfl⟩
    · exact ⟨rfl, rfl⟩
    · exact ⟨rfl, rfl⟩
    · exact ⟨rfl, rfl⟩
    · exact ⟨rfl, rfl⟩
    · exact ⟨rfl, rfl⟩
    · exact ⟨rfl, by decide⟩
    · simp at h
    · obtain ⟨l, hl, hel⟩ := List.mem_flatten.mp h
      obtain ⟨m, _, rfl⟩ := List.mem_map.mp hl
      obtain ⟨ha, hb, -⟩ := mountCleanEffects_classify env m e hel
      exact ⟨ha, hb⟩
  · have hflat : ∀ mounts : List MountConfig,
        ((mounts.map (mountCleanEffects env)).flatten.filter Effect.isUpload) = [] := by
      intro mounts
      induction mounts with
      | nil => simp
      | cons m rest ih =>
        simp only [List.map_cons, List.flatten_cons, List.filter_append, ih,
          List.append_nil]
        simp [mountCleanEffects, Effect.isUpload, List.filter]
    simp only [hostCleanEffects, List.filter_append, hflat, List.append_nil]
    simp [Effect.isUpload, List.filter, serviceUnitPath, exportsFilePath]
  · intro m hm
    simp only [hostCleanEffects, List.mem_append]
    right
    exact List.mem_flatten.mpr ⟨mountCleanEffects env m,
      List.mem_map.mpr ⟨m, hm, rfl⟩, by simp [mountCleanEffects]⟩

/-- C5 (amended): re-running apply against filesystems that already match
the rendered artifacts performs zero local file writes and zero service or
unit restarts (neither local automount restarts nor a remote watcher
restart), and the no-op-tolerant enable-and-start steps run for every
mount; however the remote side is not write-free: the binary, service unit
and exports file are still uploaded (three uploads per host) and moved into
place by the fused install command. -/
theorem apply_idempotent_no_restarts (env : Env) (wdr : Bool) (info : RemoteInfo)
    (hosts : List HostConfig) (hok : EnvOk env)
    (hmatch : ∀ h ∈ hosts, HostMatches env ⟨false, wdr⟩ h info) :
    (Apply env ⟨false, wdr⟩ hosts).2 = none ∧
    (∀ e ∈ (Apply env ⟨false, wdr⟩ hosts).1,
      e.isLocalWrite = false ∧ e.restartCount = 0) ∧
    ((Apply env ⟨false, wdr⟩ hosts).1.filter Effect.isUpload).length = 3 * hosts.length ∧
    (∀ h ∈ hosts, ∀ m ∈ h.mounts,
      Effect.runLocal (enableArgsOf env m) ∈ (Apply env ⟨false, wdr⟩ hosts).1) := by
  induction hosts with
  | nil => exact ⟨rfl, by simp [Apply], by simp [Apply], by simp⟩
  | cons h rest ih =>
    have hh := applyHost_unchanged env wdr h info hok (hmatch h (by simp))
    obtain ⟨ih1, ih2, ih3, ih4⟩ := ih (fun h2 hh2 => hmatch h2 (List.mem_cons_of_mem _ hh2))
    have happ : Apply env ⟨false, wdr⟩ (h :: rest)
        = (hostCleanEffects env wdr h info ++ (Apply env ⟨false, wdr⟩ rest).1,
           (Apply env ⟨false, wdr⟩ rest).2) := by
      simp [Apply, hh]
    obtain ⟨hcls, hcnt, hmem⟩ := hostCleanEffects_classify env wdr h info
    refine ⟨by rw [happ]; exact ih1, ?_, ?_, ?_⟩
    · intro e he
      rw [happ] at he
      rcases List.mem_append.mp he with h1 | h1
      · exact hcls e h1
      · exact ih2 e h1
    · rw [happ]
      simp only [List.filter_append, List.length_append, hcnt, ih3, List.length_cons]
      ring
    · intro h2 hh2 m hm
      rw [happ]
      rcases List.mem_cons.mp hh2 with rfl | h1
      · exact List.mem_append.mpr (Or.inl (hmem m hm))
      · exact List.mem_append.mpr (Or.inr (ih4 h2 h1 m hm))

theorem apply_idempotent_no_restarts_witness :
    EnvOk demoEnv ∧
    (∀ h ∈ [demoHost], HostMatches demoEnv ⟨false, false⟩ h demoInfo) ∧
    ((Apply demoEnv ⟨false, false⟩ [demoHost]).2 = none ∧
      ((Apply demoEnv ⟨false, false⟩ [demoHost]).1.filter Effect.isUpload).length
        = 3 * ([demoHost] : List HostConfig).length) := by
  have hok : EnvOk demoEnv :=
    ⟨rfl, fun _ => rfl, fun _ => rfl, fun _ => rfl, fun _ => rfl⟩
  have hmatch : ∀ h ∈ [demoHost], HostMatches demoEnv ⟨false, false⟩ h demoInfo := by
    intro h hh
    simp only [List.mem_singleton] at hh
    subst hh
    refine ⟨rfl, by decide, ?_⟩
    intro m hm
    simp only [demoHost, List.mem_singleton] at hm
    subst hm
    exact ⟨by decide, by decide⟩
  obtain ⟨h1, -, h3, -⟩ :=
    apply_idempotent_no_restarts demoEnv false demoInfo [demoHost] hok hmatch
  exact ⟨hok, hmatch, h1, h3⟩

/-- In dry-run the local loop only reads files and never errors. -/
theorem localLoop_dryrun (env : Env) (wdr : Bool) (host : HostConfig) (info : RemoteInfo) :
    ∀ (mounts : List MountConfig) (b : Bool),
      (localLoop env ⟨true, wdr⟩ host info mounts b).2.2 = none ∧
      ∀ e ∈ (localLoop env ⟨true, wdr⟩ host info mounts b).1, ∃ p, e = Effect.localRead p := by
  intro mounts
  induction mounts with
  | nil => intro b; exact ⟨rfl, by simp [localLoop]⟩
  | cons m rest ih =>
    intro b
    have hstep : localMountStep env ⟨true, wdr⟩ host info m
        = ([.localRead (mountFilePath env m), .localRead (automountFilePath env m)],
           hasChange env (mountFilePath env m)
               (renderMount (mountTmplCfg env host info m)) ||
             hasChange env (automountFilePath env m)
               (renderAutomount (mountTmplCfg env host info m)), none) := by
      simp [localMountStep]
    refine ⟨?_, ?_⟩
    · simp only [localLoop, hstep]
      exact (ih _).1
    · intro e he
      simp only [localLoop, hstep] at he
      have he2 : e = Effect.localRead (mountFilePath env m) ∨
          e = Effect.localRead (automountFilePath env m) ∨
          e ∈ (localLoop env ⟨true, wdr⟩ host info rest
            (b || (hasChange env (mountFilePath env m)
                (renderMount (mountTmplCfg env host info m)) ||
              hasChange env (automountFilePath env m)
                (renderAutomount (mountTmplCfg env host info m))))).1 := by
        simpa using he
      rcases he2 with rfl | rfl | h1
      · exact ⟨_, rfl⟩
      · exact ⟨_, rfl⟩
      · exact (ih _).2 e h1

/-- C6 (amended): with dry-run set, `applyHost` performs zero uploads, zero
file writes or replacements, zero restarts, and in fact no command at all —
every effect in its trace is either the cross-build (which, contrary to the
claim, still runs) or a local diff read; in particular no remote read
happens, so the remote diff is skipped rather than previewed. -/
theorem dry_run_purity (env : Env) (wdr : Bool) (host : HostConfig) :
    ∀ e ∈ (applyHost env ⟨true, wdr⟩ host).1,
      (∃ a, e = Effect.build a) ∨ (∃ p, e = Effect.localRead p) := by
  intro e he
  cases hp : env.probe with
  | error msg =>
    rw [show applyHost env ⟨true, wdr⟩ host = ([], some msg) from by simp [applyHost, hp]]
      at he
    simp at he
  | ok info =>
    by_cases hb : env.buildOk = true
    · obtain ⟨hln, hlm⟩ := localLoop_dryrun env wdr host info host.mounts false
      obtain ⟨l1, b1, hl⟩ : ∃ l1 b1,
          localLoop env ⟨true, wdr⟩ host info host.mounts false = (l1, b1, none) :=
        ⟨_, _, by rw [← hln]⟩
      have hl1 : (localLoop env ⟨true, wdr⟩ host info host.mounts false).1 = l1 := by
        rw [hl]
      have happ : applyHost env ⟨true, wdr⟩ host = (Effect.build info.arch :: l1, none) := by
        simp [applyHost, hp, hb, remotePhase, hl]
      rw [happ] at he
      rcases List.mem_cons.mp he with rfl | h1
      · exact Or.inl ⟨info.arch, rfl⟩
      · exact Or.inr (hlm e (hl1 ▸ h1))
    · have hb2 : env.buildOk = false := by simpa using hb
      have happ : applyHost env ⟨true, wdr⟩ host
          = ([Effect.build info.arch], some "build failed") := by
        simp [applyHost, hp, hb2]
      rw [happ] at he
      simp only [List.mem_singleton] at he
      subst he
      exact Or.inl ⟨info.arch, rfl⟩

theorem dry_run_purity_witness :
    (Effect.localRead "/etc/systemd/system/mnt-data.mount"
        ∈ (applyHost demoEnv ⟨true, false⟩ demoHost).1) ∧
    ((∃ a, Effect.localRead "/etc/systemd/system/mnt-data.mount" = Effect.build a) ∨
     (∃ p, Effect.localRead "/etc/systemd/system/mnt-data.mount" = Effect.localRead p)) :=
  ⟨by decide, dry_run_purity demoEnv false demoHost _ (by decide)⟩

/-- C7: `Apply` processes the hosts strictly sequentially in list order:
when every host succeeds the trace is the in-order concatenation of the
per-host traces; when a host fails after a prefix of successes, the run
stops with that host's wrapped error, the trace holds exactly the earlier
hosts' effects followed by the failing host's partial effects (nothing is
rolled back), and no later host contributes anything. -/
theorem apply_sequential_abort (env : Env) (opts : ApplyOptions) :
    (∀ hosts : List HostConfig, (∀ h ∈ hosts, (applyHost env opts h).2 = none) →
      Apply env opts hosts
        = ((hosts.map fun h => (applyHost env opts h).1).flatten, none)) ∧
    (∀ (pre : List HostConfig) (h : HostConfig) (post : List HostConfig) (e : String),
      (∀ h2 ∈ pre, (applyHost env opts h2).2 = none) →
      (applyHost env opts h).2 = some e →
      Apply env opts (pre ++ h :: post)
        = ((pre.map fun h2 => (applyHost env opts h2).1).flatten ++ (applyHost env opts h).1,
           some ("failed to deploy host " ++ h.hostAlias ++ ": " ++ e))) := by
  constructor
  · intro hosts
    induction hosts with
    | nil => intro _; rfl
    | cons h rest ih =>
      intro hall
      have hh := hall h (by simp)
      obtain ⟨effs, heffs⟩ : ∃ effs, applyHost env opts h = (effs, none) :=
        ⟨(applyHost env opts h).1, by rw [← hh]⟩
      simp [Apply, heffs, ih (fun h2 h3 => hall h2 (List.mem_cons_of_mem _ h3))]
  · intro pre
    induction pre with
    | nil =>
      intro h post e _ hfail
      obtain ⟨effs, heffs⟩ : ∃ effs, applyHost env opts h = (effs, some e) :=
        ⟨(applyHost env opts h).1, by rw [← hfail]⟩
      simp [Apply, heffs]
    | cons h2 rest ih =>
      intro h post e hpre hfail
      have hh2 := hpre h2 (by simp)
      obtain ⟨effs, heffs⟩ : ∃ effs, applyHost env opts h2 = (effs, none) :=
        ⟨(applyHost env opts h2).1, by rw [← hh2]⟩
      have := ih h post e (fun h3 h4 => hpre h3 (List.mem_cons_of_mem _ h4)) hfail
      simp [Apply, heffs, this]

/-- An environment in which the cross-build fails. -/
def failEnv : Env :=
  ⟨.ok demoInfo, fun _ => "192.168.1.100", false, fun _ => none, fun _ => true,
   fun _ => true, fun _ => none, fun _ => true, fun _ => true, fun _ => "mnt-data",
   "/usr/local/bin/autonfs"⟩

theorem apply_sequential_abort_witness :
    ((applyHost failEnv ⟨false, false⟩ demoHost).2 = some "build failed") ∧
    Apply failEnv ⟨false, false⟩ ([] ++ demoHost :: [demoHost])
      = ((([] : List HostConfig).map fun h2 =>
            (applyHost failEnv ⟨false, false⟩ h2).1).flatten
          ++ (applyHost failEnv ⟨false, false⟩ demoHost).1,
         some ("failed to deploy host " ++ demoHost.hostAlias ++ ": " ++ "build failed")) :=
  ⟨by decide,
   (apply_sequential_abort failEnv ⟨false, false⟩).2 [] demoHost [demoHost] "build failed"
     (by simp) (by decide)⟩

theorem chainExec_all_ok (ok : String → Bool) :
    ∀ cmds, (∀ c ∈ cmds, ok c = true) → chainExec ok cmds = (cmds, true) := by
  intro cmds
  induction cmds with
  | nil => intro _; rfl
  | cons c rest ih =>
    intro hall
    simp [chainExec, hall c (by simp), ih (fun c2 h2 => hall c2 (List.mem_cons_of_mem _ h2))]

/-- The effect trace of `RunUndeploy`: always the seven local commands, and
the remote chain exactly when an alias is supplied and the connection
succeeds. -/
theorem runUndeploy_effects (env : UndeployEnv) (opts : UndeployOptions) :
    (RunUndeploy env opts).1
      = (undeployLocalCmds (env.escapePath opts.localDir)).map Effect.runLocal
        ++ (if opts.sshAlias = "" ∨ env.connectOk = false then []
            else [Effect.remoteExec (chainExec env.remoteStepOk cleanupCmds).1]) := by
  unfold RunUndeploy
  by_cases ha : opts.sshAlias = ""
  · simp [ha]
  · by_cases hc : env.connectOk
    · cases hr : (chainExec env.remoteStepOk cleanupCmds).2 <;> simp [ha, hc, hr]
    · simp [ha, hc]

/-- C8 (amended): the seven local cleanup steps always all execute, in
order, whatever fails (their errors are discarded), and a supplied alias
additionally triggers the remote mirror cleanup; but the five remote steps
run as a single `&&`-joined command, so they execute only up to and
including the first failing step — a remote failure does short-circuit the
remaining remote steps (and is reported as the error), while all five run
when none fails. -/
theorem undeploy_best_effort (env : UndeployEnv) (opts : UndeployOptions) :
    ((RunUndeploy env opts).1.take 7
      = (undeployLocalCmds (env.escapePath opts.localDir)).map Effect.runLocal) ∧
    (opts.sshAlias ≠ "" → env.connectOk = true →
      (RunUndeploy env opts).1
        = (undeployLocalCmds (env.escapePath opts.localDir)).map Effect.runLocal
          ++ [Effect.remoteExec (chainExec env.remoteStepOk cleanupCmds).1]) ∧
    ((∀ c ∈ cleanupCmds, env.remoteStepOk c = true) →
      chainExec env.remoteStepOk cleanupCmds = (cleanupCmds, true)) ∧
    (∀ c rest, env.remoteStepOk c = false →
      chainExec env.remoteStepOk (c :: rest) = ([c], false)) := by
  have hlen : ((undeployLocalCmds (env.escapePath opts.localDir)).map Effect.runLocal).length
      = 7 := by
    simp [undeployLocalCmds]
  refine ⟨?_, ?_, chainExec_all_ok env.remoteStepOk cleanupCmds, ?_⟩
  · rw [runUndeploy_effects env opts]
    split
    · rw [List.append_nil]
      exact List.take_of_length_le (by rw [hlen])
    · exact List.take_left' hlen
  · intro ha hc
    rw [runUndeploy_effects env opts]
    rw [if_neg (by simp [ha, hc])]
  · intro c rest hc
    simp [chainExec, hc]

/-- An undeploy environment in which every step succeeds. -/
def demoUEnvOk : UndeployEnv := ⟨fun _ => "mnt-data", true, fun _ => true⟩

theorem undeploy_best_effort_witness :
    ("server" ≠ "") ∧ demoUEnvOk.connectOk = true ∧
    (RunUndeploy demoUEnvOk ⟨"server", "/mnt/data"⟩).1
      = (undeployLocalCmds (demoUEnvOk.escapePath "/mnt/data")).map Effect.runLocal
        ++ [Effect.remoteExec (chainExec demoUEnvOk.remoteStepOk cleanupCmds).1] :=
  ⟨by decide, rfl,
   (undeploy_best_effort demoUEnvOk ⟨"server", "/mnt/data"⟩).2.1 (by decide) rfl⟩

end AutoNFS
